import Mathlib

/-!
Verification of the training-orchestration script `main.py` of the
transductive-vos repository.  The script is glue around a deep-learning
framework: argument parsing, a training/validation loop, loss scaling and
gradient accumulation, checkpoint I/O and visualization.  We embed the
script as pure state-passing Lean functions.  Framework-side operations
(forward pass, backward pass, optimizer step, scheduler step) are abstract
functions collected in a `Torch` record; the script's observable actions
are recorded in an event trace.
-/

namespace VOS

/-- Command-line arguments defined in `parse_options` of `main.py`.
Fields keep the source names.  `data` and `resume` have no default in the
source (`argparse` leaves them `None`), hence `Option String`. -/
structure Args where
  frame_num : Nat
  dataset : String
  data : Option String
  resume : Option String
  save_model : String
  epochs : Nat
  model : String
  temperature : ℚ
  bs : Nat
  lr : ℚ
  wd : ℚ
  iter_size : Nat
  cj : Bool
  local_rank : Nat
  val_freq : Nat
  save_freq : Nat
  log_freq : Nat
deriving Repr, DecidableEq

/-- Untranslated from `parse_options` in `main.py`: the `Args` value produced
when no command-line option is given, i.e. the argparse defaults. -/
def parse_options : Args where
  frame_num := 10
  dataset := "davis"
  data := none
  resume := none
  save_model := "./checkpoints"
  epochs := 240
  model := "resnet50"
  temperature := 1
  bs := 16
  lr := 2/100
  wd := 3/10000
  iter_size := 1
  cj := false
  local_rank := 0
  val_freq := 1
  save_freq := 1
  log_freq := 25

/-- Configuration with which `main` builds a `torch.utils.data.DataLoader`
(`main.py` lines 85-104): both loaders receive a `DistributedSampler`,
`shuffle=False`, `pin_memory=True`, `drop_last=True`, batch size
`args.bs // world_size` and `num_workers = 8 // world_size`. -/
structure LoaderCfg where
  batch_size : Nat
  shuffle : Bool
  usesDistributedSampler : Bool
  pin_memory : Bool
  num_workers : Nat
  drop_last : Bool
deriving Repr, DecidableEq

/-- The loader configuration `main` uses; the training and validation
loaders are built with identical keyword arguments. -/
def mkLoaderCfg (args : Args) (world_size : Nat) : LoaderCfg where
  batch_size := args.bs / world_size
  shuffle := false
  usesDistributedSampler := true
  pin_memory := true
  num_workers := 8 / world_size
  drop_last := true

/-- Modelled from the spec: class `AverageMeter` lives in `lib/utils`,
which is not part of the provided sources.  The claims describe it as a
running weighted average: `update v n` records `val := v`, adds `v * n`
to the running sum, adds `n` to the count and sets `avg := sum / count`.
This is the standard meter of pytorch example code. -/
structure AverageMeter where
  val : ℚ
  sum : ℚ
  count : Nat
  avg : ℚ
deriving Repr, DecidableEq

/-- Freshly constructed meter (all fields reset to zero). -/
def AverageMeter.init : AverageMeter := ⟨0, 0, 0, 0⟩

/-- Modelled from the spec: `AverageMeter.update(val, n)`. -/
def AverageMeter.update (m : AverageMeter) (v : ℚ) (n : Nat) : AverageMeter :=
  { val := v
    sum := m.sum + v * n
    count := m.count + n
    avg := (m.sum + v * n) / ((m.count + n : Nat) : ℚ) }

/-- A checkpoint dictionary as saved by `torch.save` in `main`
(`main.py` lines 154-159 and 165-170): the next epoch index together
with the model, optimizer and scheduler state dicts.  The state-dict
types are abstract. -/
structure Checkpoint (M O S : Type) where
  epoch : Nat
  state_dict : M
  optimizer : O
  scheduler : S
deriving Repr, DecidableEq

/-- Abstract interface to the framework operations `main.py` invokes.
`M`, `O`, `S` are the model, optimizer and scheduler state types and `B`
the type of a batch yielded by a loader.  `forward` is the loss returned
by the `CrossEntropy` criterion on the model's features in training mode,
`valForward` the same in eval mode under `no_grad`; `batchSize` is
`img_input.shape[0]`; `backward` is `loss.backward()` (gradient
accumulation), `optStep` is `optimizer.step()`, `zeroGrad` is
`optimizer.zero_grad()` and `schedStep` is `scheduler.step()`. -/
structure Torch (M O S B : Type) where
  forward : M → B → ℚ
  valForward : M → B → ℚ
  batchSize : B → Nat
  backward : ℚ → M → O → M × O
  optStep : M → O → M × O
  zeroGrad : O → O
  schedStep : S → S

/-- Observable actions of the script, in program order. -/
inductive Ev (M O S : Type) where
  | logInfo : Ev M O S
  | visLine (win : String) : Ev M O S
  | visImages (win : String) : Ev M O S
  | backwardEv (loss : ℚ) : Ev M O S
  | optStepEv : Ev M O S
  | zeroGradEv : Ev M O S
  | trainStart (epoch : Nat) : Ev M O S
  | trainEnd (epoch : Nat) : Ev M O S
  | valStart (epoch : Nat) : Ev M O S
  | valEnd (epoch : Nat) : Ev M O S
  | schedStepEv : Ev M O S
  | saveEpoch (epoch : Nat) (path : String) (ck : Checkpoint M O S) : Ev M O S
  | saveFinal (path : String) (ck : Checkpoint M O S) : Ev M O S
deriving Repr, DecidableEq

/-- The error `raise NotImplementedError` of `main.py` line 106. -/
inductive MainError where
  | notImplemented
deriving Repr, DecidableEq

/-- Model of `os.path.join` as used by `main` (both arguments are plain
relative path components in the script). -/
def pathJoin (a b : String) : String := a ++ "/" ++ b

variable {M O S B : Type}

/-- Body of the `for i, (...) in enumerate(train_loader)` loop of `train`
(`main.py` lines 187-256), as structural recursion over the remaining
batches with `i` the running index.  Per batch: the criterion loss is
divided by `args.iter_size`, backpropagated, recorded in the meter with
weight `batch_size`; `optimizer.step(); optimizer.zero_grad()` runs iff
`(i + 1) % args.iter_size == 0`; logging (and, when `vis` is live,
visualization) happens iff `i % args.log_freq == 0`. -/
def trainLoop (T : Torch M O S B) (args : Args) (vis : Bool) :
    Nat → List B → AverageMeter → M → O → List (Ev M O S) × AverageMeter × M × O
  | _, [], losses, m, o => ([], losses, m, o)
  | i, b :: bs, losses, m, o =>
    let loss := T.forward m b / (args.iter_size : ℚ)
    let mo1 := T.backward loss m o
    let losses1 := losses.update loss (T.batchSize b)
    let mo2 :=
      if (i + 1) % args.iter_size = 0 then
        let t := T.optStep mo1.1 mo1.2
        (t.1, T.zeroGrad t.2)
      else mo1
    let stepEvs : List (Ev M O S) :=
      if (i + 1) % args.iter_size = 0 then [Ev.optStepEv, Ev.zeroGradEv] else []
    let logEvs : List (Ev M O S) :=
      if i % args.log_freq = 0 then
        Ev.logInfo ::
          (if vis then
            [Ev.visLine "loss", Ev.visLine "lr", Ev.visImages "inputs",
             Ev.visImages "GT", Ev.visImages "pred"]
          else [])
      else []
    let rest := trainLoop T args vis (i + 1) bs losses1 mo2.1 mo2.2
    (Ev.backwardEv loss :: stepEvs ++ logEvs ++ rest.1, rest.2)

/-- One call of `train` (`main.py` lines 174-259): runs the batch loop
from a fresh meter and returns the trace, `losses.avg` and the updated
model and optimizer states. -/
def train (T : Torch M O S B) (args : Args) (vis : Bool) (epoch : Nat)
    (batches : List B) (m : M) (o : O) : List (Ev M O S) × ℚ × M × O :=
  let r := trainLoop T args vis 0 batches AverageMeter.init m o
  (Ev.trainStart epoch :: r.1 ++ [Ev.trainEnd epoch], r.2.1.avg, r.2.2)

/-- Body of the batch loop of `validate` (`main.py` lines 275-317): the
criterion loss (eval mode) is divided by `args.iter_size` and recorded in
the meter; logging happens iff `i % args.log_freq == 0`; no state is
modified (`model.eval()` under `torch.no_grad()`). -/
def valLoop (T : Torch M O S B) (args : Args) (m : M) :
    Nat → List B → AverageMeter → List (Ev M O S) × AverageMeter
  | _, [], losses => ([], losses)
  | i, b :: bs, losses =>
    let loss := T.valForward m b / (args.iter_size : ℚ)
    let losses1 := losses.update loss (T.batchSize b)
    let logEvs : List (Ev M O S) := if i % args.log_freq = 0 then [Ev.logInfo] else []
    let rest := valLoop T args m (i + 1) bs losses1
    (logEvs ++ rest.1, rest.2)

/-- One call of `validate` (`main.py` lines 262-325): runs the batch loop,
emits the `val_loss` visualization line when `vis` is live, and returns
the trace and `losses.avg`. -/
def validate (T : Torch M O S B) (args : Args) (vis : Bool) (epoch : Nat)
    (batches : List B) (m : M) : List (Ev M O S) × ℚ :=
  let r := valLoop T args m 0 batches AverageMeter.init
  (Ev.valStart epoch :: r.1 ++ (if vis then [Ev.visLine "val_loss"] else []) ++
     [Ev.valEnd epoch], r.2.avg)

/-- The sequence of loss values the criterion returns across the batches
of one training epoch, following the same state evolution as `trainLoop`
(backward on the scaled loss, optimizer step and zero_grad when
`(i + 1) % args.iter_size == 0`). -/
def lossSeq (T : Torch M O S B) (args : Args) :
    Nat → List B → M → O → List ℚ
  | _, [], _, _ => []
  | i, b :: bs, m, o =>
    let loss := T.forward m b / (args.iter_size : ℚ)
    let mo1 := T.backward loss m o
    let mo2 :=
      if (i + 1) % args.iter_size = 0 then
        let t := T.optStep mo1.1 mo1.2
        (t.1, T.zeroGrad t.2)
      else mo1
    T.forward m b :: lossSeq T args (i + 1) bs mo2.1 mo2.2

/-- The loss value carried by each `loss.backward()` event of a trace, in
order. -/
def backLosses (l : List (Ev M O S)) : List ℚ :=
  l.filterMap (fun ev =>
    match ev with
    | .backwardEv q => some q
    | _ => none)

/-- For each `loss.backward()` event of a trace, whether it is
immediately followed by `optimizer.step()` and `optimizer.zero_grad()`. -/
def stepFlags : List (Ev M O S) → List Bool
  | .backwardEv _ :: .optStepEv :: .zeroGradEv :: rest => true :: stepFlags rest
  | .backwardEv _ :: rest => false :: stepFlags rest
  | _ :: rest => stepFlags rest
  | [] => []

/-- Folding `AverageMeter.update` over a list of (value, weight) pairs. -/
def meterFold : List (ℚ × Nat) → AverageMeter → AverageMeter
  | [], a => a
  | p :: ps, a => meterFold ps (a.update p.1 p.2)

/-- Body of the epoch loop of `main` (`main.py` lines 140-160), as
structural recursion over the list of remaining epoch indices: one
training pass, a validation pass iff `epoch % args.val_freq == 0`, one
scheduler step, and a per-epoch checkpoint save iff
`epoch % args.save_freq == 0` and the process rank is 0. -/
def mainLoop (T : Torch M O S B) (args : Args) (rank : Nat) (vis : Bool)
    (trainBatches valBatches : Nat → List B) :
    List Nat → M → O → S → List (Ev M O S) × M × O × S
  | [], m, o, s => ([], m, o, s)
  | e :: es, m, o, s =>
    let tr := train T args vis e (trainBatches e) m o
    let m1 := tr.2.2.1
    let o1 := tr.2.2.2
    let vTrace : List (Ev M O S) :=
      if e % args.val_freq = 0 then (validate T args vis e (valBatches e) m1).1 else []
    let s1 := T.schedStep s
    let saveTrace : List (Ev M O S) :=
      if e % args.save_freq = 0 ∧ rank = 0 then
        [Ev.saveEpoch e
          (pathJoin args.save_model ("checkpoint-epoch-" ++ toString e ++ ".pth.tar"))
          ⟨e + 1, m1, o1, s1⟩]
      else []
    let rest := mainLoop T args rank vis trainBatches valBatches es m1 o1 s1
    (tr.1 ++ vTrace ++ Ev.schedStepEv :: saveTrace ++ rest.1, rest.2)

/-- Result of a (non-raising) run of `main`. -/
structure MainResult (M O S : Type) where
  trainCfg : LoaderCfg
  valCfg : LoaderCfg
  loaded : Option (Checkpoint M O S)
  start_epoch : Nat
  visOn : Bool
  trace : List (Ev M O S)
  finalSavePath : String
  finalCkpt : Checkpoint M O S
deriving Repr, DecidableEq

/-- The resume block of `main` (`main.py` lines 107-119): when
`args.resume` names an existing checkpoint file, load it (two log lines),
restore `start_epoch` and the three state dicts; otherwise (unset, or no
such file, with one log line in the latter case) keep `start_epoch = 0`
and the fresh states.  Returns (loaded checkpoint if any, start_epoch,
model, optimizer, scheduler, emitted log events). -/
def resumeState (args : Args) (initM : M) (initO : O) (initS : S)
    (fs : String → Option (Checkpoint M O S)) :
    Option (Checkpoint M O S) × Nat × M × O × S × List (Ev M O S) :=
  match args.resume with
  | none => (none, 0, initM, initO, initS, [])
  | some path =>
    match fs path with
    | some ck =>
      (some ck, ck.epoch, ck.state_dict, ck.optimizer, ck.scheduler,
       [Ev.logInfo, Ev.logInfo])
    | none => (none, 0, initM, initO, initS, [Ev.logInfo])

/-- The `start_epoch` value `main` enters its loop with: the loaded
checkpoint's `epoch` field when `args.resume` names an existing file,
else 0. -/
def resumeEpoch (args : Args) (fs : String → Option (Checkpoint M O S)) : Nat :=
  match args.resume with
  | none => 0
  | some path =>
    match fs path with
    | some ck => ck.epoch
    | none => 0

/-- The function `main` of `main.py` (lines 64-171).  Inputs beyond `args`:
the distributed world size and the rank of this process, the abstract
framework operations `T`, the batches each loader yields at each epoch,
the freshly initialized model/optimizer/scheduler states, and the file
system `fs` consulted by `os.path.isfile` / `torch.load`.  Raises
`NotImplementedError` when `args.dataset` is not `"davis"`; otherwise
resumes from `args.resume` when that file exists (restoring the three
state dicts and `start_epoch`), creates the Visdom client iff the rank
is 0, runs the epoch loop over `range(start_epoch, args.epochs)` and
always ends by saving `checkpoint-final.pth.tar` with epoch field
`args.epochs + 1`. -/
def mainRun (T : Torch M O S B) (args : Args) (world_size rank : Nat)
    (trainBatches valBatches : Nat → List B)
    (initM : M) (initO : O) (initS : S)
    (fs : String → Option (Checkpoint M O S)) :
    Except MainError (MainResult M O S) :=
  if args.dataset = "davis" then
    let cfg := mkLoaderCfg args world_size
    let resumed := resumeState args initM initO initS fs
    let visOn : Bool := rank == 0
    let visTrace : List (Ev M O S) :=
      if visOn then [Ev.visLine "loss", Ev.visLine "lr", Ev.visLine "val_loss"]
      else []
    let start_epoch := resumed.2.1
    let loopOut := mainLoop T args rank visOn trainBatches valBatches
      (List.range' start_epoch (args.epochs - start_epoch))
      resumed.2.2.1 resumed.2.2.2.1 resumed.2.2.2.2.1
    let finalPath := pathJoin args.save_model "checkpoint-final.pth.tar"
    let finalCk : Checkpoint M O S :=
      ⟨args.epochs + 1, loopOut.2.1, loopOut.2.2.1, loopOut.2.2.2⟩
    Except.ok
      { trainCfg := cfg
        valCfg := cfg
        loaded := resumed.1
        start_epoch := start_epoch
        visOn := visOn
        trace := resumed.2.2.2.2.2 ++ visTrace ++ loopOut.1 ++
          [Ev.saveFinal finalPath finalCk]
        finalSavePath := finalPath
        finalCkpt := finalCk }
  else
    Except.error MainError.notImplemented

/-! Observation functions on traces. -/

/-- Recognizes the start-of-training marker of epoch `e`. -/
def isTrainStartAt (e : Nat) : Ev M O S → Bool
  | .trainStart e' => e' == e
  | _ => false

/-- Recognizes the start-of-validation marker of epoch `e`. -/
def isValStartAt (e : Nat) : Ev M O S → Bool
  | .valStart e' => e' == e
  | _ => false

/-- Recognizes a `scheduler.step()` event. -/
def isSchedStepEv : Ev M O S → Bool
  | .schedStepEv => true
  | _ => false

/-- Recognizes a per-epoch checkpoint save. -/
def isSaveEpochEv : Ev M O S → Bool
  | .saveEpoch _ _ _ => true
  | _ => false

/-- Recognizes the final checkpoint save. -/
def isSaveFinalEv : Ev M O S → Bool
  | .saveFinal _ _ => true
  | _ => false

/-- Recognizes any visualization call (`vis.line` or `vis.images`). -/
def isVisEv : Ev M O S → Bool
  | .visLine _ => true
  | .visImages _ => true
  | _ => false

/-- Recognizes an `optimizer.step()` event. -/
def isOptStepEv : Ev M O S → Bool
  | .optStepEv => true
  | _ => false

/-- Recognizes an `optimizer.zero_grad()` event. -/
def isZeroGradEv : Ev M O S → Bool
  | .zeroGradEv => true
  | _ => false

/-- Recognizes a `loss.backward()` event. -/
def isBackwardEv : Ev M O S → Bool
  | .backwardEv _ => true
  | _ => false

/-- Recognizes a logging event. -/
def isLogInfoEv : Ev M O S → Bool
  | .logInfo => true
  | _ => false

/-- Events that the body of a batch loop can emit. -/
def isLoopEv : Ev M O S → Bool
  | .backwardEv _ => true
  | .optStepEv => true
  | .zeroGradEv => true
  | .logInfo => true
  | .visLine _ => true
  | .visImages _ => true
  | _ => false

/-! Concrete instances used to exercise the theorems on closed inputs. -/

/-- A concrete instantiation of the framework interface over `Nat` states
and batches. -/
def torchNat : Torch Nat Nat Nat Nat where
  forward := fun m b => ((m + b : Nat) : ℚ)
  valForward := fun m b => ((m + 2 * b : Nat) : ℚ)
  batchSize := fun b => b + 1
  backward := fun _ m o => (m + 1, o + 1)
  optStep := fun m o => (m + 10, o + 10)
  zeroGrad := fun _ => 0
  schedStep := fun s => s + 1

/-- An empty file system: no checkpoint file exists. -/
def fsEmpty : String → Option (Checkpoint Nat Nat Nat) := fun _ => none

instance {ε α : Type} [DecidableEq ε] [DecidableEq α] :
    DecidableEq (Except ε α) := fun x y =>
  match x, y with
  | .ok a, .ok b =>
    if h : a = b then isTrue (by rw [h]) else isFalse (by simp [h])
  | .error a, .error b =>
    if h : a = b then isTrue (by rw [h]) else isFalse (by simp [h])
  | .ok _, .error _ => isFalse (by simp)
  | .error _, .ok _ => isFalse (by simp)

/-- The result of the concrete one-epoch rank-0 run used as a closed
test input: one saved per-epoch checkpoint and the final checkpoint. -/
def oneEpochRunResult : MainResult Nat Nat Nat where
  trainCfg := mkLoaderCfg { parse_options with epochs := 1 } 1
  valCfg := mkLoaderCfg { parse_options with epochs := 1 } 1
  loaded := none
  start_epoch := 0
  visOn := true
  trace := [Ev.visLine "loss", Ev.visLine "lr", Ev.visLine "val_loss",
    Ev.trainStart 0, Ev.trainEnd 0, Ev.valStart 0,
    Ev.visLine "val_loss", Ev.valEnd 0, Ev.schedStepEv,
    Ev.saveEpoch 0 (pathJoin "./checkpoints" "checkpoint-epoch-0.pth.tar")
      ⟨1, 0, 0, 1⟩,
    Ev.saveFinal (pathJoin "./checkpoints" "checkpoint-final.pth.tar")
      ⟨2, 0, 0, 1⟩]
  finalSavePath := pathJoin "./checkpoints" "checkpoint-final.pth.tar"
  finalCkpt := ⟨2, 0, 0, 1⟩

/-! Basic structural lemmas about the batch loops. -/

theorem trainLoop_events (T : Torch M O S B) (args : Args) (vis : Bool) :
    ∀ (i : Nat) (bs : List B) (l : AverageMeter) (m : M) (o : O),
      ((trainLoop T args vis i bs l m o).1.all isLoopEv) = true := by
  intro i bs
  induction bs generalizing i with
  | nil => intro l m o; rfl
  | cons b bs ih =>
    intro l m o
    simp only [trainLoop, List.all_cons, List.all_append, Bool.and_eq_true, and_assoc]
    refine ⟨rfl, ?_, ?_, ih (i + 1) _ _ _⟩
    · split <;> rfl
    · split
      · cases vis <;> rfl
      · rfl

theorem valLoop_events (T : Torch M O S B) (args : Args) (m : M) :
    ∀ (i : Nat) (bs : List B) (l : AverageMeter),
      ((valLoop T args m i bs l).1.all isLogInfoEv) = true := by
  intro i bs
  induction bs generalizing i with
  | nil => intro l; rfl
  | cons b bs ih =>
    intro l
    simp only [valLoop, List.all_append, Bool.and_eq_true]
    refine ⟨?_, ih (i + 1) _⟩
    split <;> rfl

theorem countP_eq_zero_of_all (l : List (Ev M O S)) (q p : Ev M O S → Bool)
    (hall : l.all q = true) (himp : ∀ ev, q ev = true → p ev = false) :
    l.countP p = 0 := by
  refine List.countP_eq_zero.mpr ?_
  intro a ha
  have hq := List.all_eq_true.mp hall a ha
  simp [himp a hq]

theorem trainLoop_countP_zero (T : Torch M O S B) (args : Args) (vis : Bool)
    (i : Nat) (bs : List B) (l : AverageMeter) (m : M) (o : O)
    (p : Ev M O S → Bool) (hp : ∀ ev, isLoopEv ev = true → p ev = false) :
    (trainLoop T args vis i bs l m o).1.countP p = 0 :=
  countP_eq_zero_of_all _ _ _ (trainLoop_events T args vis i bs l m o) hp

theorem valLoop_countP_zero (T : Torch M O S B) (args : Args) (m : M)
    (i : Nat) (bs : List B) (l : AverageMeter)
    (p : Ev M O S → Bool) (hp : p Ev.logInfo = false) :
    (valLoop T args m i bs l).1.countP p = 0 := by
  refine countP_eq_zero_of_all _ _ _ (valLoop_events T args m i bs l) ?_
  intro ev hev
  cases ev <;> simp_all [isLogInfoEv]

theorem train_countP_trainStart (T : Torch M O S B) (args : Args) (vis : Bool)
    (e : Nat) (bs : List B) (m : M) (o : O) (e' : Nat) :
    (train T args vis e bs m o).1.countP (isTrainStartAt e') =
      if e = e' then 1 else 0 := by
  have h0 : (trainLoop T args vis 0 bs AverageMeter.init m o).1.countP
      (isTrainStartAt e') = 0 := by
    refine trainLoop_countP_zero _ _ _ _ _ _ _ _ _ ?_
    intro ev hev
    cases ev <;> simp_all [isLoopEv, isTrainStartAt]
  simp [train, List.countP_cons, List.countP_append, h0, isTrainStartAt]

theorem train_countP_zero (T : Torch M O S B) (args : Args) (vis : Bool)
    (e : Nat) (bs : List B) (m : M) (o : O) (p : Ev M O S → Bool)
    (hp : ∀ ev, isLoopEv ev = true → p ev = false)
    (hts : ∀ w, p (Ev.trainStart w) = false)
    (hte : ∀ w, p (Ev.trainEnd w) = false) :
    (train T args vis e bs m o).1.countP p = 0 := by
  have h0 : (trainLoop T args vis 0 bs AverageMeter.init m o).1.countP p = 0 :=
    trainLoop_countP_zero _ _ _ _ _ _ _ _ _ hp
  simp [train, List.countP_cons, List.countP_append, h0, hts, hte]

theorem validate_countP_valStart (T : Torch M O S B) (args : Args) (vis : Bool)
    (e : Nat) (bs : List B) (m : M) (e' : Nat) :
    (validate T args vis e bs m).1.countP (isValStartAt e') =
      if e = e' then 1 else 0 := by
  have h0 : (valLoop T args m 0 bs AverageMeter.init).1.countP
      (isValStartAt e') = 0 := valLoop_countP_zero _ _ _ _ _ _ _ rfl
  simp [validate, List.countP_cons, List.countP_append, h0, isValStartAt]

theorem validate_countP_zero (T : Torch M O S B) (args : Args) (vis : Bool)
    (e : Nat) (bs : List B) (m : M) (p : Ev M O S → Bool)
    (hlog : p Ev.logInfo = false)
    (hvl : ∀ w, p (Ev.visLine w) = false)
    (hvs : ∀ w, p (Ev.valStart w) = false)
    (hve : ∀ w, p (Ev.valEnd w) = false) :
    (validate T args vis e bs m).1.countP p = 0 := by
  have h0 : (valLoop T args m 0 bs AverageMeter.init).1.countP p = 0 :=
    valLoop_countP_zero _ _ _ _ _ _ _ hlog
  cases vis <;>
    simp [validate, List.countP_cons, List.countP_append, h0, hvl, hvs, hve]

/-! Counting lemmas for the epoch loop of `main`. -/

theorem mainLoop_countP_trainStart (T : Torch M O S B) (args : Args)
    (rank : Nat) (vis : Bool) (tb vb : Nat → List B) :
    ∀ (es : List Nat) (m : M) (o : O) (s : S) (e : Nat),
      (mainLoop T args rank vis tb vb es m o s).1.countP (isTrainStartAt e) =
        es.count e := by
  intro es
  induction es with
  | nil => intro m o s e; simp [mainLoop]
  | cons e' es ih =>
    intro m o s e
    have hv : ∀ (bs : List B) (mm : M),
        ((if e' % args.val_freq = 0 then (validate T args vis e' bs mm).1
          else []) : List (Ev M O S)).countP (isTrainStartAt e) = 0 := by
      intro bs mm
      split
      · exact validate_countP_zero _ _ _ _ _ _ _ rfl (fun _ => rfl)
          (fun _ => rfl) (fun _ => rfl)
      · rfl
    have hs : ∀ (ck : Checkpoint M O S) (pth : String),
        ((if e' % args.save_freq = 0 ∧ rank = 0 then [Ev.saveEpoch e' pth ck]
          else []) : List (Ev M O S)).countP (isTrainStartAt e) = 0 := by
      intro ck pth
      split <;> simp [isTrainStartAt]
    simp only [mainLoop, List.countP_append, List.countP_cons,
      train_countP_trainStart, ih, hv, hs, List.count_cons]
    by_cases h : e' = e
    · simp [h, isTrainStartAt]; omega
    · simp [h, isTrainStartAt]

theorem mainLoop_countP_valStart (T : Torch M O S B) (args : Args)
    (rank : Nat) (vis : Bool) (tb vb : Nat → List B) :
    ∀ (es : List Nat) (m : M) (o : O) (s : S) (e : Nat),
      (mainLoop T args rank vis tb vb es m o s).1.countP (isValStartAt e) =
        if e % args.val_freq = 0 then es.count e else 0 := by
  intro es
  induction es with
  | nil => intro m o s e; simp [mainLoop]
  | cons e' es ih =>
    intro m o s e
    have ht : ∀ (bs : List B) (mm : M) (oo : O),
        ((train T args vis e' bs mm oo).1).countP (isValStartAt e) = 0 := by
      intro bs mm oo
      refine train_countP_zero _ _ _ _ _ _ _ _ ?_ (fun _ => rfl) (fun _ => rfl)
      intro ev hev
      cases ev <;> simp_all [isLoopEv, isValStartAt]
    have hs : ∀ (ck : Checkpoint M O S) (pth : String),
        ((if e' % args.save_freq = 0 ∧ rank = 0 then [Ev.saveEpoch e' pth ck]
          else []) : List (Ev M O S)).countP (isValStartAt e) = 0 := by
      intro ck pth
      split <;> simp [isValStartAt]
    simp only [mainLoop, List.countP_append, List.countP_cons,
      ht, ih, hs, List.count_cons]
    by_cases hval : e' % args.val_freq = 0
    · simp only [hval, if_true, validate_countP_valStart]
      by_cases h : e' = e
      · subst h; simp [hval, isValStartAt]; omega
      · by_cases h2 : e % args.val_freq = 0 <;>
          simp [h, h2, isValStartAt, Ne.symm h]
    · simp only [hval, if_false]
      by_cases h : e' = e
      · subst h; simp [hval, isValStartAt]
      · by_cases h2 : e % args.val_freq = 0 <;>
          simp [h, h2, isValStartAt, Ne.symm h]

theorem mainLoop_countP_sched (T : Torch M O S B) (args : Args)
    (rank : Nat) (vis : Bool) (tb vb : Nat → List B) :
    ∀ (es : List Nat) (m : M) (o : O) (s : S),
      (mainLoop T args rank vis tb vb es m o s).1.countP isSchedStepEv =
        es.length := by
  intro es
  induction es with
  | nil => intro m o s; simp [mainLoop]
  | cons e' es ih =>
    intro m o s
    have ht : ∀ (bs : List B) (mm : M) (oo : O),
        ((train T args vis e' bs mm oo).1).countP isSchedStepEv = 0 := by
      intro bs mm oo
      refine train_countP_zero _ _ _ _ _ _ _ _ ?_ (fun _ => rfl) (fun _ => rfl)
      intro ev hev
      cases ev <;> simp_all [isLoopEv, isSchedStepEv]
    have hv : ∀ (bs : List B) (mm : M),
        ((if e' % args.val_freq = 0 then (validate T args vis e' bs mm).1
          else []) : List (Ev M O S)).countP isSchedStepEv = 0 := by
      intro bs mm
      split
      · exact validate_countP_zero _ _ _ _ _ _ _ rfl (fun _ => rfl)
          (fun _ => rfl) (fun _ => rfl)
      · rfl
    have hs : ∀ (ck : Checkpoint M O S) (pth : String),
        ((if e' % args.save_freq = 0 ∧ rank = 0 then [Ev.saveEpoch e' pth ck]
          else []) : List (Ev M O S)).countP isSchedStepEv = 0 := by
      intro ck pth
      split <;> simp [isSchedStepEv]
    simp [mainLoop, List.countP_append, List.countP_cons, ht, hv, hs, ih,
      isSchedStepEv]

theorem mainLoop_countP_saveFinal (T : Torch M O S B) (args : Args)
    (rank : Nat) (vis : Bool) (tb vb : Nat → List B) :
    ∀ (es : List Nat) (m : M) (o : O) (s : S),
      (mainLoop T args rank vis tb vb es m o s).1.countP isSaveFinalEv = 0 := by
  intro es
  induction es with
  | nil => intro m o s; simp [mainLoop]
  | cons e' es ih =>
    intro m o s
    have ht : ∀ (bs : List B) (mm : M) (oo : O),
        ((train T args vis e' bs mm oo).1).countP isSaveFinalEv = 0 := by
      intro bs mm oo
      refine train_countP_zero _ _ _ _ _ _ _ _ ?_ (fun _ => rfl) (fun _ => rfl)
      intro ev hev
      cases ev <;> simp_all [isLoopEv, isSaveFinalEv]
    have hv : ∀ (bs : List B) (mm : M),
        ((if e' % args.val_freq = 0 then (validate T args vis e' bs mm).1
          else []) : List (Ev M O S)).countP isSaveFinalEv = 0 := by
      intro bs mm
      split
      · exact validate_countP_zero _ _ _ _ _ _ _ rfl (fun _ => rfl)
          (fun _ => rfl) (fun _ => rfl)
      · rfl
    have hs : ∀ (ck : Checkpoint M O S) (pth : String),
        ((if e' % args.save_freq = 0 ∧ rank = 0 then [Ev.saveEpoch e' pth ck]
          else []) : List (Ev M O S)).countP isSaveFinalEv = 0 := by
      intro ck pth
      split <;> simp [isSaveFinalEv]
    simp [mainLoop, List.countP_append, List.countP_cons, ht, hv, hs, ih,
      isSaveFinalEv]

theorem mainLoop_countP_saveEpoch_of_rank (T : Torch M O S B) (args : Args)
    (rank : Nat) (vis : Bool) (tb vb : Nat → List B) (hr : rank ≠ 0) :
    ∀ (es : List Nat) (m : M) (o : O) (s : S),
      (mainLoop T args rank vis tb vb es m o s).1.countP isSaveEpochEv = 0 := by
  intro es
  induction es with
  | nil => intro m o s; simp [mainLoop]
  | cons e' es ih =>
    intro m o s
    have ht : ∀ (bs : List B) (mm : M) (oo : O),
        ((train T args vis e' bs mm oo).1).countP isSaveEpochEv = 0 := by
      intro bs mm oo
      refine train_countP_zero _ _ _ _ _ _ _ _ ?_ (fun _ => rfl) (fun _ => rfl)
      intro ev hev
      cases ev <;> simp_all [isLoopEv, isSaveEpochEv]
    have hv : ∀ (bs : List B) (mm : M),
        ((if e' % args.val_freq = 0 then (validate T args vis e' bs mm).1
          else []) : List (Ev M O S)).countP isSaveEpochEv = 0 := by
      intro bs mm
      split
      · exact validate_countP_zero _ _ _ _ _ _ _ rfl (fun _ => rfl)
          (fun _ => rfl) (fun _ => rfl)
      · rfl
    have hs : ∀ (ck : Checkpoint M O S) (pth : String),
        ((if e' % args.save_freq = 0 ∧ rank = 0 then [Ev.saveEpoch e' pth ck]
          else []) : List (Ev M O S)).countP isSaveEpochEv = 0 := by
      intro ck pth
      split
      · rename_i hcond
        exact absurd hcond.2 hr
      · rfl
    simp [mainLoop, List.countP_append, List.countP_cons, ht, hv, hs, ih,
      isSaveEpochEv]

/-! Absence of visualization events when the Visdom client is `None`. -/

theorem trainLoop_countP_vis_false (T : Torch M O S B) (args : Args) :
    ∀ (i : Nat) (bs : List B) (l : AverageMeter) (m : M) (o : O),
      (trainLoop T args false i bs l m o).1.countP isVisEv = 0 := by
  intro i bs
  induction bs generalizing i with
  | nil => intro l m o; simp [trainLoop]
  | cons b bs ih =>
    intro l m o
    simp only [trainLoop, List.countP_append, List.countP_cons, ih (i + 1),
      isVisEv]
    split <;> split <;> simp_all [isVisEv]

theorem train_countP_vis_false (T : Torch M O S B) (args : Args) (e : Nat)
    (bs : List B) (m : M) (o : O) :
    (train T args false e bs m o).1.countP isVisEv = 0 := by
  simp [train, List.countP_append, List.countP_cons,
    trainLoop_countP_vis_false, isVisEv]

theorem validate_countP_vis_false (T : Torch M O S B) (args : Args) (e : Nat)
    (bs : List B) (m : M) :
    (validate T args false e bs m).1.countP isVisEv = 0 := by
  have h0 : (valLoop T args m 0 bs AverageMeter.init).1.countP
      (isVisEv (M := M) (O := O) (S := S)) = 0 :=
    valLoop_countP_zero _ _ _ _ _ _ _ rfl
  simp [validate, List.countP_append, List.countP_cons, h0, isVisEv]

theorem mainLoop_countP_vis_false (T : Torch M O S B) (args : Args)
    (rank : Nat) (tb vb : Nat → List B) :
    ∀ (es : List Nat) (m : M) (o : O) (s : S),
      (mainLoop T args rank false tb vb es m o s).1.countP isVisEv = 0 := by
  intro es
  induction es with
  | nil => intro m o s; simp [mainLoop]
  | cons e' es ih =>
    intro m o s
    have hv : ∀ (bs : List B) (mm : M),
        ((if e' % args.val_freq = 0 then (validate T args false e' bs mm).1
          else []) : List (Ev M O S)).countP isVisEv = 0 := by
      intro bs mm
      split
      · exact validate_countP_vis_false T args e' bs mm
      · rfl
    have hs : ∀ (ck : Checkpoint M O S) (pth : String),
        ((if e' % args.save_freq = 0 ∧ rank = 0 then [Ev.saveEpoch e' pth ck]
          else []) : List (Ev M O S)).countP isVisEv = 0 := by
      intro ck pth
      split <;> simp [isVisEv]
    simp [mainLoop, List.countP_append, List.countP_cons,
      train_countP_vis_false, hv, hs, ih, isVisEv]

/-! Characterization of per-epoch checkpoint saves. -/

theorem train_not_mem_saveEpoch (T : Torch M O S B) (args : Args) (vis : Bool)
    (e' : Nat) (bs : List B) (m : M) (o : O) (e : Nat) (pth : String)
    (ck : Checkpoint M O S) :
    Ev.saveEpoch e pth ck ∉ (train T args vis e' bs m o).1 := by
  intro hmem
  have h0 : (train T args vis e' bs m o).1.countP isSaveEpochEv = 0 := by
    refine train_countP_zero _ _ _ _ _ _ _ _ ?_ (fun _ => rfl) (fun _ => rfl)
    intro ev hev
    cases ev <;> simp_all [isLoopEv, isSaveEpochEv]
  exact (List.countP_eq_zero.mp h0) _ hmem rfl

theorem validate_not_mem_saveEpoch (T : Torch M O S B) (args : Args)
    (vis : Bool) (e' : Nat) (bs : List B) (m : M) (e : Nat) (pth : String)
    (ck : Checkpoint M O S) :
    Ev.saveEpoch e pth ck ∉ (validate T args vis e' bs m).1 := by
  intro hmem
  have h0 : (validate T args vis e' bs m).1.countP isSaveEpochEv = 0 :=
    validate_countP_zero _ _ _ _ _ _ _ rfl (fun _ => rfl) (fun _ => rfl)
      (fun _ => rfl)
  exact (List.countP_eq_zero.mp h0) _ hmem rfl

theorem mainLoop_saveEpoch_mem (T : Torch M O S B) (args : Args)
    (rank : Nat) (vis : Bool) (tb vb : Nat → List B) :
    ∀ (es : List Nat) (m : M) (o : O) (s : S) (e : Nat) (pth : String)
      (ck : Checkpoint M O S),
      Ev.saveEpoch e pth ck ∈ (mainLoop T args rank vis tb vb es m o s).1 →
        rank = 0 ∧ e ∈ es ∧ e % args.save_freq = 0 ∧ ck.epoch = e + 1 ∧
        pth = pathJoin args.save_model
          ("checkpoint-epoch-" ++ toString e ++ ".pth.tar") := by
  intro es
  induction es with
  | nil => intro m o s e pth ck h; simp [mainLoop] at h
  | cons e' es ih =>
    intro m o s e pth ck h
    simp only [mainLoop, List.mem_append, List.mem_cons] at h
    rcases h with ((h | h) | h | h) | h
    · exact absurd h (train_not_mem_saveEpoch T args vis e' _ m o e pth ck)
    · split at h
      · exact absurd h (validate_not_mem_saveEpoch T args vis e' _ _ e pth ck)
      · simp at h
    · exact absurd h (by simp)
    · split at h
      · rename_i hcond
        simp only [List.mem_singleton, Ev.saveEpoch.injEq] at h
        obtain ⟨he, hp, hc⟩ := h
        subst he
        refine ⟨hcond.2, List.mem_cons_self _ _, hcond.1, ?_, hp⟩
        rw [hc]
      · simp at h
    · have hrec := ih _ _ _ e pth ck h
      exact ⟨hrec.1, List.mem_cons_of_mem _ hrec.2.1, hrec.2.2⟩

/-! Reduction rules for `stepFlags` on the event shapes a training trace
contains. -/

theorem stepFlags_nil : stepFlags ([] : List (Ev M O S)) = [] := rfl

theorem stepFlags_logInfo (t : List (Ev M O S)) :
    stepFlags (Ev.logInfo :: t) = stepFlags t := rfl

theorem stepFlags_visLine (w : String) (t : List (Ev M O S)) :
    stepFlags (Ev.visLine w :: t) = stepFlags t := rfl

theorem stepFlags_visImages (w : String) (t : List (Ev M O S)) :
    stepFlags (Ev.visImages w :: t) = stepFlags t := rfl

theorem stepFlags_trainStart (e : Nat) (t : List (Ev M O S)) :
    stepFlags (Ev.trainStart e :: t) = stepFlags t := rfl

theorem stepFlags_trainEnd (e : Nat) (t : List (Ev M O S)) :
    stepFlags (Ev.trainEnd e :: t) = stepFlags t := rfl

theorem stepFlags_back_step (q : ℚ) (t : List (Ev M O S)) :
    stepFlags (Ev.backwardEv q :: Ev.optStepEv :: Ev.zeroGradEv :: t) =
      true :: stepFlags t := rfl

theorem stepFlags_back_logInfo (q : ℚ) (t : List (Ev M O S)) :
    stepFlags (Ev.backwardEv q :: Ev.logInfo :: t) =
      false :: stepFlags (Ev.logInfo :: t) := rfl

theorem stepFlags_back_back (q q' : ℚ) (t : List (Ev M O S)) :
    stepFlags (Ev.backwardEv q :: Ev.backwardEv q' :: t) =
      false :: stepFlags (Ev.backwardEv q' :: t) := rfl

theorem stepFlags_back_trainEnd (q : ℚ) (e : Nat) (t : List (Ev M O S)) :
    stepFlags (Ev.backwardEv q :: Ev.trainEnd e :: t) =
      false :: stepFlags (Ev.trainEnd e :: t) := rfl

theorem stepFlags_visBlock (c : Prop) [Decidable c] (t : List (Ev M O S)) :
    stepFlags ((if c then
        [Ev.visLine "loss", Ev.visLine "lr", Ev.visImages "inputs",
         Ev.visImages "GT", Ev.visImages "pred"]
      else ([] : List (Ev M O S))) ++ t) = stepFlags t := by
  split <;>
    simp [stepFlags_visLine, stepFlags_visImages, List.cons_append,
      List.nil_append]

theorem stepFlags_trainLoop (T : Torch M O S B) (args : Args) (vis : Bool)
    (e0 : Nat) :
    ∀ (i : Nat) (bs : List B) (l : AverageMeter) (m : M) (o : O),
      stepFlags ((trainLoop T args vis i bs l m o).1 ++ [Ev.trainEnd e0]) =
        (List.range' i bs.length).map
          (fun j => decide ((j + 1) % args.iter_size = 0)) := by
  intro i bs
  induction bs generalizing i with
  | nil =>
    intro l m o
    simp [trainLoop, stepFlags_trainEnd, stepFlags_nil]
  | cons b bs ih =>
    intro l m o
    simp only [trainLoop, List.cons_append, List.append_assoc,
      List.length_cons, List.range'_succ, List.map_cons]
    by_cases hstep : (i + 1) % args.iter_size = 0
    · have hdec : decide ((i + 1) % args.iter_size = 0) = true := by
        simp [hstep]
      simp only [if_pos hstep, List.cons_append, stepFlags_back_step, hdec]
      by_cases hlog : i % args.log_freq = 0
      · simp only [if_pos hlog, List.cons_append, List.nil_append,
          stepFlags_logInfo, stepFlags_visBlock, ih (i + 1)]
      · simp only [if_neg hlog, List.nil_append, ih (i + 1)]
    · simp only [if_neg hstep, List.nil_append]
      have hdec : decide ((i + 1) % args.iter_size = 0) = false := by
        simp [hstep]
      by_cases hlog : i % args.log_freq = 0
      · simp only [if_pos hlog, List.cons_append, stepFlags_back_logInfo,
          stepFlags_logInfo, stepFlags_visBlock, ih (i + 1), hdec]
      · simp only [if_neg hlog, List.nil_append]
        cases bs with
        | nil =>
          simp [trainLoop, stepFlags_back_trainEnd, stepFlags_trainEnd,
            stepFlags_nil, hdec]
        | cons b2 bs2 =>
          obtain ⟨t2, ht2⟩ :
              ∃ t2, (trainLoop T args vis (i + 1) (b2 :: bs2)
                (l.update (T.forward m b / (args.iter_size : ℚ))
                  (T.batchSize b))
                (T.backward (T.forward m b / (args.iter_size : ℚ)) m o).1
                (T.backward (T.forward m b / (args.iter_size : ℚ)) m o).2).1 =
                Ev.backwardEv
                  (T.forward
                    (T.backward (T.forward m b / (args.iter_size : ℚ)) m o).1
                    b2 / (args.iter_size : ℚ)) :: t2 := ⟨_, rfl⟩
          rw [ht2, List.cons_append, stepFlags_back_back, ← List.cons_append,
            ← ht2, ih (i + 1), hdec]

theorem backLosses_trainLoop (T : Torch M O S B) (args : Args) (vis : Bool) :
    ∀ (i : Nat) (bs : List B) (l : AverageMeter) (m : M) (o : O),
      backLosses (trainLoop T args vis i bs l m o).1 =
        (lossSeq T args i bs m o).map (fun q => q / (args.iter_size : ℚ)) := by
  intro i bs
  induction bs generalizing i with
  | nil => intro l m o; rfl
  | cons b bs ih =>
    intro l m o
    simp only [backLosses] at ih ⊢
    by_cases hstep : (i + 1) % args.iter_size = 0 <;>
      by_cases hlog : i % args.log_freq = 0 <;>
      cases vis <;>
      simp [trainLoop, lossSeq, hstep, hlog, ih (i + 1),
        List.filterMap_cons, List.filterMap_append]

theorem trainLoop_countP_opt (T : Torch M O S B) (args : Args) (vis : Bool) :
    ∀ (i : Nat) (bs : List B) (l : AverageMeter) (m : M) (o : O),
      (trainLoop T args vis i bs l m o).1.countP isOptStepEv =
        (List.range' i bs.length).countP
          (fun j => (j + 1) % args.iter_size == 0) := by
  intro i bs
  induction bs generalizing i with
  | nil => intro l m o; simp [trainLoop]
  | cons b bs ih =>
    intro l m o
    by_cases hstep : (i + 1) % args.iter_size = 0 <;>
      by_cases hlog : i % args.log_freq = 0 <;>
      cases vis <;>
      simp [trainLoop, hstep, hlog, ih (i + 1), List.countP_cons,
        List.countP_append, List.range'_succ, isOptStepEv]

theorem trainLoop_countP_zeroGrad (T : Torch M O S B) (args : Args)
    (vis : Bool) :
    ∀ (i : Nat) (bs : List B) (l : AverageMeter) (m : M) (o : O),
      (trainLoop T args vis i bs l m o).1.countP isZeroGradEv =
        (List.range' i bs.length).countP
          (fun j => (j + 1) % args.iter_size == 0) := by
  intro i bs
  induction bs generalizing i with
  | nil => intro l m o; simp [trainLoop]
  | cons b bs ih =>
    intro l m o
    by_cases hstep : (i + 1) % args.iter_size = 0 <;>
      by_cases hlog : i % args.log_freq = 0 <;>
      cases vis <;>
      simp [trainLoop, hstep, hlog, ih (i + 1), List.countP_cons,
        List.countP_append, List.range'_succ, isZeroGradEv]

/-! Lemmas about the running average meter. -/

theorem meterFold_sum : ∀ (ps : List (ℚ × Nat)) (a : AverageMeter),
    (meterFold ps a).sum = a.sum + (ps.map (fun p => p.1 * (p.2 : ℚ))).sum := by
  intro ps
  induction ps with
  | nil => intro a; simp [meterFold]
  | cons p ps ih =>
    intro a
    simp only [meterFold, ih, AverageMeter.update, List.map_cons,
      List.sum_cons]
    ring

theorem meterFold_count : ∀ (ps : List (ℚ × Nat)) (a : AverageMeter),
    (meterFold ps a).count = a.count + (ps.map Prod.snd).sum := by
  intro ps
  induction ps with
  | nil => intro a; simp [meterFold]
  | cons p ps ih =>
    intro a
    simp only [meterFold, ih, AverageMeter.update, List.map_cons,
      List.sum_cons]
    omega

theorem meterFold_avg : ∀ (ps : List (ℚ × Nat)) (a : AverageMeter),
    ps ≠ [] →
    (meterFold ps a).avg = (meterFold ps a).sum / ((meterFold ps a).count : ℚ) := by
  intro ps
  induction ps with
  | nil => intro a h; exact absurd rfl h
  | cons p ps ih =>
    intro a h
    cases ps with
    | nil => simp [meterFold, AverageMeter.update]
    | cons q qs => exact ih (a.update p.1 p.2) (by simp)

theorem trainLoop_meter (T : Torch M O S B) (args : Args) (vis : Bool) :
    ∀ (i : Nat) (bs : List B) (l : AverageMeter) (m : M) (o : O),
      (trainLoop T args vis i bs l m o).2.1 =
        meterFold
          (((lossSeq T args i bs m o).map
              (fun q => q / (args.iter_size : ℚ))).zip (bs.map T.batchSize))
          l := by
  intro i bs
  induction bs generalizing i with
  | nil => intro l m o; rfl
  | cons b bs ih =>
    intro l m o
    by_cases hstep : (i + 1) % args.iter_size = 0
    · simp only [trainLoop, lossSeq, if_pos hstep, List.map_cons,
        List.zip_cons_cons, meterFold, ih (i + 1)]
      rfl
    · simp only [trainLoop, lossSeq, if_neg hstep, List.map_cons,
        List.zip_cons_cons, meterFold, ih (i + 1)]
      rfl

theorem valLoop_meter (T : Torch M O S B) (args : Args) (m : M) :
    ∀ (i : Nat) (bs : List B) (l : AverageMeter),
      (valLoop T args m i bs l).2 =
        meterFold
          ((bs.map (fun b => T.valForward m b / (args.iter_size : ℚ))).zip
            (bs.map T.batchSize)) l := by
  intro i bs
  induction bs generalizing i with
  | nil => intro l; rfl
  | cons b bs ih =>
    intro l
    simp only [valLoop, meterFold, List.map_cons, List.zip_cons_cons,
      ih (i + 1)]
    rfl

theorem lossSeq_length (T : Torch M O S B) (args : Args) :
    ∀ (i : Nat) (bs : List B) (m : M) (o : O),
      (lossSeq T args i bs m o).length = bs.length := by
  intro i bs
  induction bs generalizing i with
  | nil => intro m o; rfl
  | cons b bs ih =>
    intro m o
    simp only [lossSeq, List.length_cons]
    split <;> simp [ih (i + 1)]

/-! Lemmas about the resume block. -/

theorem resumeState_start (args : Args) (iM : M) (iO : O) (iS : S)
    (fs : String → Option (Checkpoint M O S)) :
    (resumeState args iM iO iS fs).2.1 = resumeEpoch args fs := by
  cases hres : args.resume with
  | none => simp [resumeState, resumeEpoch, hres]
  | some p =>
    cases hfs : fs p with
    | none => simp [resumeState, resumeEpoch, hres, hfs]
    | some ck => simp [resumeState, resumeEpoch, hres, hfs]

theorem resumeState_countP (args : Args) (iM : M) (iO : O) (iS : S)
    (fs : String → Option (Checkpoint M O S)) (p : Ev M O S → Bool)
    (hp : p Ev.logInfo = false) :
    (resumeState args iM iO iS fs).2.2.2.2.2.countP p = 0 := by
  cases hres : args.resume with
  | none => simp [resumeState, hres]
  | some pa =>
    cases hfs : fs pa with
    | none => simp [resumeState, hres, hfs, hp]
    | some ck => simp [resumeState, hres, hfs, hp]

theorem count_range' (s n e : Nat) :
    (List.range' s n).count e = if s ≤ e ∧ e < s + n then 1 else 0 := by
  by_cases h : s ≤ e ∧ e < s + n
  · rw [if_pos h]
    exact List.count_eq_one_of_mem (List.nodup_range' s n 1 Nat.one_pos)
      (List.mem_range'_1.mpr h)
  · rw [if_neg h]
    exact List.count_eq_zero_of_not_mem (fun hm => h (List.mem_range'_1.mp hm))

/-! The batch and epoch loops read only some fields of `args`; in
particular none of them reads `args.resume`. -/

theorem trainLoop_args_congr (T : Torch M O S B) (vis : Bool) (a b : Args)
    (h1 : a.iter_size = b.iter_size) (h2 : a.log_freq = b.log_freq) :
    ∀ (i : Nat) (bs : List B) (l : AverageMeter) (m : M) (o : O),
      trainLoop T a vis i bs l m o = trainLoop T b vis i bs l m o := by
  intro i bs
  induction bs generalizing i with
  | nil => intro l m o; rfl
  | cons x xs ih =>
    intro l m o
    simp only [trainLoop, h1, h2, ih (i + 1)]

theorem train_args_congr (T : Torch M O S B) (vis : Bool) (a b : Args)
    (h1 : a.iter_size = b.iter_size) (h2 : a.log_freq = b.log_freq)
    (e : Nat) (bs : List B) (m : M) (o : O) :
    train T a vis e bs m o = train T b vis e bs m o := by
  simp only [train, trainLoop_args_congr T vis a b h1 h2]

theorem valLoop_args_congr (T : Torch M O S B) (m : M) (a b : Args)
    (h1 : a.iter_size = b.iter_size) (h2 : a.log_freq = b.log_freq) :
    ∀ (i : Nat) (bs : List B) (l : AverageMeter),
      valLoop T a m i bs l = valLoop T b m i bs l := by
  intro i bs
  induction bs generalizing i with
  | nil => intro l; rfl
  | cons x xs ih =>
    intro l
    simp only [valLoop, h1, h2, ih (i + 1)]

theorem validate_args_congr (T : Torch M O S B) (vis : Bool) (a b : Args)
    (h1 : a.iter_size = b.iter_size) (h2 : a.log_freq = b.log_freq)
    (e : Nat) (bs : List B) (m : M) :
    validate T a vis e bs m = validate T b vis e bs m := by
  simp only [validate, valLoop_args_congr T m a b h1 h2]

theorem mainLoop_args_congr (T : Torch M O S B) (rank : Nat) (vis : Bool)
    (tb vb : Nat → List B) (a b : Args)
    (h1 : a.iter_size = b.iter_size) (h2 : a.log_freq = b.log_freq)
    (h3 : a.val_freq = b.val_freq) (h4 : a.save_freq = b.save_freq)
    (h5 : a.save_model = b.save_model) :
    ∀ (es : List Nat) (m : M) (o : O) (s : S),
      mainLoop T a rank vis tb vb es m o s =
        mainLoop T b rank vis tb vb es m o s := by
  intro es
  induction es with
  | nil => intro m o s; rfl
  | cons e' es ih =>
    intro m o s
    simp only [mainLoop, train_args_congr T vis a b h1 h2,
      validate_args_congr T vis a b h1 h2, h3, h4, h5, ih]

/-! Claims. -/

/-- C4: `parse_options` defaults `dataset` to `"davis"` (and `epochs` to
240, `frame_num` to 10, `iter_size` to 1, `val_freq` to 1, `save_freq` to
1), and for every parsed `args` whose `dataset` is not `"davis"`, `main`
raises `NotImplementedError` before entering the training loop (the run
produces the error and nothing else). -/
theorem parse_options_defaults_and_dataset_guard
    (T : Torch M O S B) (args : Args) (world_size rank : Nat)
    (tb vb : Nat → List B) (iM : M) (iO : O) (iS : S)
    (fs : String → Option (Checkpoint M O S))
    (hds : args.dataset ≠ "davis") :
    parse_options.dataset = "davis" ∧ parse_options.epochs = 240 ∧
    parse_options.frame_num = 10 ∧ parse_options.iter_size = 1 ∧
    parse_options.val_freq = 1 ∧ parse_options.save_freq = 1 ∧
    mainRun T args world_size rank tb vb iM iO iS fs =
      Except.error MainError.notImplemented := by
  refine ⟨rfl, rfl, rfl, rfl, rfl, rfl, ?_⟩
  simp [mainRun, hds]

/-- Witness for C4 at a concrete non-davis argument record. -/
theorem parse_options_defaults_and_dataset_guard_witness :
    ({ parse_options with dataset := "youtube" } : Args).dataset ≠ "davis" ∧
    (parse_options.dataset = "davis" ∧ parse_options.epochs = 240 ∧
     parse_options.frame_num = 10 ∧ parse_options.iter_size = 1 ∧
     parse_options.val_freq = 1 ∧ parse_options.save_freq = 1 ∧
     mainRun torchNat { parse_options with dataset := "youtube" } 1 0
       (fun _ => []) (fun _ => []) 0 0 0 fsEmpty =
       Except.error MainError.notImplemented) :=
  ⟨by decide,
   parse_options_defaults_and_dataset_guard torchNat
     { parse_options with dataset := "youtube" } 1 0
     (fun _ => []) (fun _ => []) 0 0 0 fsEmpty (by decide)⟩

/-- C6: under the davis dataset both the training and the validation
loader are built with identical configurations: a `DistributedSampler`,
`shuffle=False`, `drop_last=True`, per-process batch size
`args.bs // world_size` (floor division, hence 0 when
`world_size > args.bs`) and `num_workers = 8 // world_size`. -/
theorem loader_configuration
    (T : Torch M O S B) (args : Args) (world_size rank : Nat)
    (tb vb : Nat → List B) (iM : M) (iO : O) (iS : S)
    (fs : String → Option (Checkpoint M O S))
    (hds : args.dataset = "davis") :
    Except.map MainResult.trainCfg
        (mainRun T args world_size rank tb vb iM iO iS fs) =
      Except.ok (mkLoaderCfg args world_size) ∧
    Except.map MainResult.valCfg
        (mainRun T args world_size rank tb vb iM iO iS fs) =
      Except.ok (mkLoaderCfg args world_size) ∧
    (mkLoaderCfg args world_size).batch_size = args.bs / world_size ∧
    (mkLoaderCfg args world_size).num_workers = 8 / world_size ∧
    (mkLoaderCfg args world_size).usesDistributedSampler = true ∧
    (mkLoaderCfg args world_size).shuffle = false ∧
    (mkLoaderCfg args world_size).drop_last = true ∧
    (mkLoaderCfg args world_size).pin_memory = true ∧
    (world_size > args.bs → (mkLoaderCfg args world_size).batch_size = 0) := by
  refine ⟨?_, ?_, rfl, rfl, rfl, rfl, rfl, rfl, ?_⟩
  · simp [mainRun, hds, Except.map]
  · simp [mainRun, hds, Except.map]
  · intro h
    exact Nat.div_eq_of_lt h

/-- Witness for C6 with 20 processes and the default batch size 16. -/
theorem loader_configuration_witness :
    parse_options.dataset = "davis" ∧
    Except.map MainResult.trainCfg
        (mainRun torchNat parse_options 20 0 (fun _ => []) (fun _ => [])
          0 0 0 fsEmpty) =
      Except.ok (mkLoaderCfg parse_options 20) ∧
    Except.map MainResult.valCfg
        (mainRun torchNat parse_options 20 0 (fun _ => []) (fun _ => [])
          0 0 0 fsEmpty) =
      Except.ok (mkLoaderCfg parse_options 20) ∧
    (mkLoaderCfg parse_options 20).batch_size = 16 / 20 ∧
    (mkLoaderCfg parse_options 20).num_workers = 8 / 20 ∧
    (mkLoaderCfg parse_options 20).batch_size = 0 := by
  have h := loader_configuration torchNat parse_options 20 0
    (fun _ => []) (fun _ => []) 0 0 0 fsEmpty rfl
  exact ⟨rfl, h.1, h.2.1, h.2.2.1, h.2.2.2.1,
    h.2.2.2.2.2.2.2.2 (by decide)⟩

/-- C2: for every epoch in `[start_epoch, args.epochs)` the loop performs
exactly one training pass, a validation pass iff
`epoch % args.val_freq == 0`, and exactly one scheduler step
(`args.epochs - start_epoch` steps in total); afterwards `main` always
writes exactly one final checkpoint named `checkpoint-final.pth.tar`
whose epoch field is `args.epochs + 1`, whatever `args.save_freq` is.
The positivity hypotheses exclude the zero frequencies, on which the
Python script would raise `ZeroDivisionError` inside the loop. -/
theorem main_epoch_loop_structure
    (T : Torch M O S B) (args : Args) (world_size rank : Nat)
    (tb vb : Nat → List B) (iM : M) (iO : O) (iS : S)
    (fs : String → Option (Checkpoint M O S)) (e : Nat)
    (hds : args.dataset = "davis")
    (hvf : 0 < args.val_freq) (hsf : 0 < args.save_freq) :
    Except.map (fun r => r.trace.countP (isTrainStartAt e))
        (mainRun T args world_size rank tb vb iM iO iS fs) =
      Except.ok (if resumeEpoch args fs ≤ e ∧ e < args.epochs then 1 else 0) ∧
    Except.map (fun r => r.trace.countP (isValStartAt e))
        (mainRun T args world_size rank tb vb iM iO iS fs) =
      Except.ok (if resumeEpoch args fs ≤ e ∧ e < args.epochs ∧
        e % args.val_freq = 0 then 1 else 0) ∧
    Except.map (fun r => r.trace.countP isSchedStepEv)
        (mainRun T args world_size rank tb vb iM iO iS fs) =
      Except.ok (args.epochs - resumeEpoch args fs) ∧
    Except.map (fun r => r.trace.countP isSaveFinalEv)
        (mainRun T args world_size rank tb vb iM iO iS fs) =
      Except.ok 1 ∧
    Except.map (fun r => (r.finalSavePath, r.finalCkpt.epoch))
        (mainRun T args world_size rank tb vb iM iO iS fs) =
      Except.ok (pathJoin args.save_model "checkpoint-final.pth.tar",
        args.epochs + 1) := by
  refine ⟨?_, ?_, ?_, ?_, ?_⟩
  · simp only [mainRun, hds, if_true, Except.map, List.countP_append,
      List.countP_cons,
      resumeState_countP args iM iO iS fs (isTrainStartAt e) rfl,
      mainLoop_countP_trainStart, resumeState_start, count_range',
      apply_ite (List.countP (isTrainStartAt (M := M) (O := O) (S := S) e))]
    simp [isTrainStartAt]
    split_ifs <;> omega
  · simp only [mainRun, hds, if_true, Except.map, List.countP_append,
      List.countP_cons,
      resumeState_countP args iM iO iS fs (isValStartAt e) rfl,
      mainLoop_countP_valStart, resumeState_start, count_range',
      apply_ite (List.countP (isValStartAt (M := M) (O := O) (S := S) e))]
    simp [isValStartAt]
    by_cases hm : e % args.val_freq = 0 <;> simp [hm] <;> split_ifs <;> omega
  · simp only [mainRun, hds, if_true, Except.map, List.countP_append,
      List.countP_cons,
      resumeState_countP args iM iO iS fs isSchedStepEv rfl,
      mainLoop_countP_sched, resumeState_start,
      apply_ite (List.countP (isSchedStepEv (M := M) (O := O) (S := S)))]
    simp [isSchedStepEv]
  · simp only [mainRun, hds, if_true, Except.map, List.countP_append,
      List.countP_cons,
      resumeState_countP args iM iO iS fs isSaveFinalEv rfl,
      mainLoop_countP_saveFinal, resumeState_start,
      apply_ite (List.countP (isSaveFinalEv (M := M) (O := O) (S := S)))]
    simp [isSaveFinalEv]
  · simp [mainRun, hds, Except.map]

/-- Witness for C2 with two processes, epochs 3 and validation every
second epoch. -/
theorem main_epoch_loop_structure_witness :
    parse_options.dataset = "davis" ∧ (0 : Nat) < 2 ∧ (0 : Nat) < 1 ∧
    (Except.map (fun r => r.trace.countP (isTrainStartAt 2))
        (mainRun torchNat { parse_options with epochs := 3, val_freq := 2 }
          2 1 (fun _ => []) (fun _ => []) 0 0 0 fsEmpty) =
      Except.ok (if resumeEpoch { parse_options with epochs := 3, val_freq := 2 }
          fsEmpty ≤ 2 ∧ 2 < 3 then 1 else 0) ∧
    Except.map (fun r => r.trace.countP (isValStartAt 2))
        (mainRun torchNat { parse_options with epochs := 3, val_freq := 2 }
          2 1 (fun _ => []) (fun _ => []) 0 0 0 fsEmpty) =
      Except.ok (if resumeEpoch { parse_options with epochs := 3, val_freq := 2 }
          fsEmpty ≤ 2 ∧ 2 < 3 ∧ 2 % 2 = 0 then 1 else 0) ∧
    Except.map (fun r => r.trace.countP isSchedStepEv)
        (mainRun torchNat { parse_options with epochs := 3, val_freq := 2 }
          2 1 (fun _ => []) (fun _ => []) 0 0 0 fsEmpty) =
      Except.ok (3 - resumeEpoch { parse_options with epochs := 3, val_freq := 2 }
          fsEmpty) ∧
    Except.map (fun r => r.trace.countP isSaveFinalEv)
        (mainRun torchNat { parse_options with epochs := 3, val_freq := 2 }
          2 1 (fun _ => []) (fun _ => []) 0 0 0 fsEmpty) =
      Except.ok 1 ∧
    Except.map (fun r => (r.finalSavePath, r.finalCkpt.epoch))
        (mainRun torchNat { parse_options with epochs := 3, val_freq := 2 }
          2 1 (fun _ => []) (fun _ => []) 0 0 0 fsEmpty) =
      Except.ok (pathJoin "./checkpoints" "checkpoint-final.pth.tar", 3 + 1)) :=
  ⟨rfl, by decide, by decide,
   main_epoch_loop_structure torchNat
     { parse_options with epochs := 3, val_freq := 2 } 2 1
     (fun _ => []) (fun _ => []) 0 0 0 fsEmpty 2 rfl (by decide) (by decide)⟩

/-- C5: `main` creates the Visdom client exactly on rank 0, and a process
with non-zero rank emits no visualization call anywhere in its run. -/
theorem visualization_rank0_only
    (T : Torch M O S B) (args : Args) (world_size rank : Nat)
    (tb vb : Nat → List B) (iM : M) (iO : O) (iS : S)
    (fs : String → Option (Checkpoint M O S))
    (hds : args.dataset = "davis") :
    Except.map MainResult.visOn
        (mainRun T args world_size rank tb vb iM iO iS fs) =
      Except.ok (rank == 0) ∧
    (rank ≠ 0 →
      Except.map (fun r => r.trace.countP isVisEv)
          (mainRun T args world_size rank tb vb iM iO iS fs) =
        Except.ok 0) := by
  constructor
  · simp [mainRun, hds, Except.map]
  · intro hr
    have hb : (rank == 0) = false := by simp [hr]
    simp only [mainRun, hds, if_true, Except.map, List.countP_append,
      List.countP_cons, hb,
      resumeState_countP args iM iO iS fs isVisEv rfl,
      mainLoop_countP_vis_false,
      apply_ite (List.countP (isVisEv (M := M) (O := O) (S := S)))]
    simp [isVisEv, hr]

/-- Witness for C5 at rank 1. -/
theorem visualization_rank0_only_witness :
    parse_options.dataset = "davis" ∧ (1 : Nat) ≠ 0 ∧
    (Except.map MainResult.visOn
        (mainRun torchNat { parse_options with epochs := 2 } 2 1
          (fun _ => [3]) (fun _ => [2]) 0 0 0 fsEmpty) =
      Except.ok ((1 : Nat) == 0) ∧
    Except.map (fun r => r.trace.countP isVisEv)
        (mainRun torchNat { parse_options with epochs := 2 } 2 1
          (fun _ => [3]) (fun _ => [2]) 0 0 0 fsEmpty) =
      Except.ok 0) := by
  have h := visualization_rank0_only torchNat { parse_options with epochs := 2 }
    2 1 (fun _ => [3]) (fun _ => [2]) 0 0 0 fsEmpty rfl
  exact ⟨rfl, by decide, h.1, h.2 (by decide)⟩

/-- C9: the final checkpoint write is not rank-guarded: every rank writes
exactly one `checkpoint-final.pth.tar` to the path derived from
`args.save_model` alone, while per-epoch checkpoint saves happen only on
rank 0 (a non-zero rank emits none). -/
theorem final_save_not_rank_guarded
    (T : Torch M O S B) (args : Args) (world_size rank : Nat)
    (tb vb : Nat → List B) (iM : M) (iO : O) (iS : S)
    (fs : String → Option (Checkpoint M O S))
    (hds : args.dataset = "davis") :
    Except.map (fun r => r.trace.countP isSaveFinalEv)
        (mainRun T args world_size rank tb vb iM iO iS fs) =
      Except.ok 1 ∧
    Except.map MainResult.finalSavePath
        (mainRun T args world_size rank tb vb iM iO iS fs) =
      Except.ok (pathJoin args.save_model "checkpoint-final.pth.tar") ∧
    (rank ≠ 0 →
      Except.map (fun r => r.trace.countP isSaveEpochEv)
          (mainRun T args world_size rank tb vb iM iO iS fs) =
        Except.ok 0) := by
  refine ⟨?_, ?_, ?_⟩
  · simp only [mainRun, hds, if_true, Except.map, List.countP_append,
      List.countP_cons,
      resumeState_countP args iM iO iS fs isSaveFinalEv rfl,
      mainLoop_countP_saveFinal, resumeState_start,
      apply_ite (List.countP (isSaveFinalEv (M := M) (O := O) (S := S)))]
    simp [isSaveFinalEv]
  · simp [mainRun, hds, Except.map]
  · intro hr
    simp only [mainRun, hds, if_true, Except.map, List.countP_append,
      List.countP_cons,
      resumeState_countP args iM iO iS fs isSaveEpochEv rfl,
      mainLoop_countP_saveEpoch_of_rank T args rank _ tb vb hr,
      apply_ite (List.countP (isSaveEpochEv (M := M) (O := O) (S := S)))]
    simp [isSaveEpochEv]

/-- Witness for C9 at rank 3. -/
theorem final_save_not_rank_guarded_witness :
    parse_options.dataset = "davis" ∧ (3 : Nat) ≠ 0 ∧
    (Except.map (fun r => r.trace.countP isSaveFinalEv)
        (mainRun torchNat { parse_options with epochs := 2 } 4 3
          (fun _ => []) (fun _ => []) 0 0 0 fsEmpty) =
      Except.ok 1 ∧
    Except.map MainResult.finalSavePath
        (mainRun torchNat { parse_options with epochs := 2 } 4 3
          (fun _ => []) (fun _ => []) 0 0 0 fsEmpty) =
      Except.ok (pathJoin "./checkpoints" "checkpoint-final.pth.tar") ∧
    Except.map (fun r => r.trace.countP isSaveEpochEv)
        (mainRun torchNat { parse_options with epochs := 2 } 4 3
          (fun _ => []) (fun _ => []) 0 0 0 fsEmpty) =
      Except.ok 0) := by
  have h := final_save_not_rank_guarded torchNat
    { parse_options with epochs := 2 } 4 3
    (fun _ => []) (fun _ => []) 0 0 0 fsEmpty rfl
  exact ⟨rfl, by decide, h.1, h.2.1, h.2.2 (by decide)⟩

/-- C10: resuming from the final checkpoint (epoch field
`args.epochs + 1`) makes the run a no-op: `start_epoch` exceeds
`args.epochs`, the loop body never executes (no training pass, no
scheduler step), and `main` immediately rewrites the final checkpoint
with exactly the restored state dicts. -/
theorem resume_from_final_checkpoint
    (T : Torch M O S B) (args : Args) (world_size rank : Nat)
    (tb vb : Nat → List B) (iM : M) (iO : O) (iS : S)
    (fs : String → Option (Checkpoint M O S)) (path : String)
    (ck : Checkpoint M O S) (e : Nat)
    (hds : args.dataset = "davis")
    (hres : args.resume = some path)
    (hfs : fs path = some ck)
    (hck : ck.epoch = args.epochs + 1) :
    Except.map MainResult.start_epoch
        (mainRun T args world_size rank tb vb iM iO iS fs) =
      Except.ok (args.epochs + 1) ∧
    args.epochs < args.epochs + 1 ∧
    Except.map (fun r => r.trace.countP (isTrainStartAt e))
        (mainRun T args world_size rank tb vb iM iO iS fs) =
      Except.ok 0 ∧
    Except.map (fun r => r.trace.countP isSchedStepEv)
        (mainRun T args world_size rank tb vb iM iO iS fs) =
      Except.ok 0 ∧
    Except.map MainResult.finalCkpt
        (mainRun T args world_size rank tb vb iM iO iS fs) =
      Except.ok ⟨args.epochs + 1, ck.state_dict, ck.optimizer, ck.scheduler⟩ ∧
    Except.map (fun r => r.trace.countP isSaveFinalEv)
        (mainRun T args world_size rank tb vb iM iO iS fs) =
      Except.ok 1 := by
  have h0 : args.epochs - ck.epoch = 0 := by omega
  refine ⟨?_, Nat.lt_succ_self _, ?_, ?_, ?_, ?_⟩ <;>
    simp [mainRun, hds, resumeState, hres, hfs, Except.map, h0, hck,
      mainLoop, List.countP_append, List.countP_cons,
      isTrainStartAt, isSchedStepEv, isSaveFinalEv,
      apply_ite (List.countP (isTrainStartAt (M := M) (O := O) (S := S) e)),
      apply_ite (List.countP (isSchedStepEv (M := M) (O := O) (S := S))),
      apply_ite (List.countP (isSaveFinalEv (M := M) (O := O) (S := S)))]

/-- Witness for C10: resuming from a final checkpoint with epoch field 3
when epochs is 2. -/
theorem resume_from_final_checkpoint_witness :
    parse_options.dataset = "davis" ∧
    ({ parse_options with epochs := 2, resume := some "final" } : Args).resume =
      some "final" ∧
    (fun p => if p = "final" then
        some (⟨3, 7, 8, 9⟩ : Checkpoint Nat Nat Nat) else none) "final" =
      some ⟨3, 7, 8, 9⟩ ∧
    (⟨3, 7, 8, 9⟩ : Checkpoint Nat Nat Nat).epoch = 2 + 1 ∧
    (Except.map MainResult.start_epoch
        (mainRun torchNat { parse_options with epochs := 2, resume := some "final" }
          1 0 (fun _ => [1]) (fun _ => [1]) 0 0 0
          (fun p => if p = "final" then some ⟨3, 7, 8, 9⟩ else none)) =
      Except.ok (2 + 1) ∧
    (2 : Nat) < 2 + 1 ∧
    Except.map (fun r => r.trace.countP (isTrainStartAt 0))
        (mainRun torchNat { parse_options with epochs := 2, resume := some "final" }
          1 0 (fun _ => [1]) (fun _ => [1]) 0 0 0
          (fun p => if p = "final" then some ⟨3, 7, 8, 9⟩ else none)) =
      Except.ok 0 ∧
    Except.map (fun r => r.trace.countP isSchedStepEv)
        (mainRun torchNat { parse_options with epochs := 2, resume := some "final" }
          1 0 (fun _ => [1]) (fun _ => [1]) 0 0 0
          (fun p => if p = "final" then some ⟨3, 7, 8, 9⟩ else none)) =
      Except.ok 0 ∧
    Except.map MainResult.finalCkpt
        (mainRun torchNat { parse_options with epochs := 2, resume := some "final" }
          1 0 (fun _ => [1]) (fun _ => [1]) 0 0 0
          (fun p => if p = "final" then some ⟨3, 7, 8, 9⟩ else none)) =
      Except.ok ⟨2 + 1, 7, 8, 9⟩ ∧
    Except.map (fun r => r.trace.countP isSaveFinalEv)
        (mainRun torchNat { parse_options with epochs := 2, resume := some "final" }
          1 0 (fun _ => [1]) (fun _ => [1]) 0 0 0
          (fun p => if p = "final" then some ⟨3, 7, 8, 9⟩ else none)) =
      Except.ok 1) :=
  ⟨rfl, rfl, by decide, rfl,
   resume_from_final_checkpoint torchNat
     { parse_options with epochs := 2, resume := some "final" } 1 0
     (fun _ => [1]) (fun _ => [1]) 0 0 0
     (fun p => if p = "final" then some ⟨3, 7, 8, 9⟩ else none)
     "final" ⟨3, 7, 8, 9⟩ 0 rfl rfl (by decide) rfl⟩

/-- C8: when `args.resume` names a path that is not an existing file,
`main` does not raise: it logs one line ("no checkpoint found") and then
behaves exactly like a run without `--resume`, with `start_epoch = 0`, no
loaded checkpoint, and the loop started from the freshly initialized
model, optimizer and scheduler states. -/
theorem resume_nonexistent_file
    (T : Torch M O S B) (args : Args) (world_size rank : Nat)
    (tb vb : Nat → List B) (iM : M) (iO : O) (iS : S)
    (fs : String → Option (Checkpoint M O S)) (path : String)
    (hds : args.dataset = "davis")
    (hres : args.resume = some path)
    (hfs : fs path = none) :
    mainRun T args world_size rank tb vb iM iO iS fs =
      Except.map (fun r0 => { r0 with trace := Ev.logInfo :: r0.trace })
        (mainRun T { args with resume := none } world_size rank tb vb
          iM iO iS fs) ∧
    Except.map MainResult.start_epoch
        (mainRun T args world_size rank tb vb iM iO iS fs) =
      Except.ok 0 ∧
    Except.map MainResult.loaded
        (mainRun T args world_size rank tb vb iM iO iS fs) =
      Except.ok none := by
  have hml := mainLoop_args_congr T rank (rank == 0) tb vb args
    { args with resume := none } rfl rfl rfl rfl rfl
  refine ⟨?_, ?_, ?_⟩ <;>
    simp only [mainRun, resumeState, hres, hfs, Except.map, mkLoaderCfg,
      hml] <;>
    simp [hds]

/-- Witness for C8: resuming from a path absent from the file system. -/
theorem resume_nonexistent_file_witness :
    ({ parse_options with epochs := 1, resume := some "missing" } : Args).dataset
      = "davis" ∧
    ({ parse_options with epochs := 1, resume := some "missing" } : Args).resume
      = some "missing" ∧
    fsEmpty "missing" = none ∧
    (mainRun torchNat { parse_options with epochs := 1, resume := some "missing" }
        1 0 (fun _ => [1]) (fun _ => [1]) 0 0 0 fsEmpty =
      Except.map (fun r0 => { r0 with trace := Ev.logInfo :: r0.trace })
        (mainRun torchNat
          { { parse_options with epochs := 1, resume := some "missing" } with
              resume := none }
          1 0 (fun _ => [1]) (fun _ => [1]) 0 0 0 fsEmpty) ∧
    Except.map MainResult.start_epoch
        (mainRun torchNat
          { parse_options with epochs := 1, resume := some "missing" }
          1 0 (fun _ => [1]) (fun _ => [1]) 0 0 0 fsEmpty) =
      Except.ok 0 ∧
    Except.map MainResult.loaded
        (mainRun torchNat
          { parse_options with epochs := 1, resume := some "missing" }
          1 0 (fun _ => [1]) (fun _ => [1]) 0 0 0 fsEmpty) =
      Except.ok none) :=
  ⟨rfl, rfl, rfl,
   resume_nonexistent_file torchNat
     { parse_options with epochs := 1, resume := some "missing" } 1 0
     (fun _ => [1]) (fun _ => [1]) 0 0 0 fsEmpty "missing" rfl rfl rfl⟩

/-- C1: every per-epoch checkpoint save in a run happens only on rank 0
at an epoch `e` with `e % args.save_freq == 0`, stores epoch field
`e + 1` under `checkpoint-epoch-e.pth.tar`, and resuming a second run
from a file holding that checkpoint restores it (`loaded`), sets
`start_epoch = e + 1`, and makes the loop train exactly the epochs
`e + 1 .. args.epochs - 1` (one training pass for each epoch in
`[e + 1, args.epochs)`, none outside). -/
theorem per_epoch_checkpoint_roundtrip
    (T : Torch M O S B)
    (args : Args) (world_size rank : Nat) (tb vb : Nat → List B)
    (iM : M) (iO : O) (iS : S) (fs : String → Option (Checkpoint M O S))
    (args2 : Args) (world_size2 rank2 : Nat) (tb2 vb2 : Nat → List B)
    (iM2 : M) (iO2 : O) (iS2 : S) (fs2 : String → Option (Checkpoint M O S))
    (r : MainResult M O S) (e : Nat) (pth : String) (ck : Checkpoint M O S)
    (p2 : String) (e2 : Nat)
    (hds : args.dataset = "davis")
    (hrun : mainRun T args world_size rank tb vb iM iO iS fs = Except.ok r)
    (hsave : Ev.saveEpoch e pth ck ∈ r.trace)
    (hds2 : args2.dataset = "davis")
    (hres2 : args2.resume = some p2)
    (hfs2 : fs2 p2 = some ck) :
    rank = 0 ∧ e % args.save_freq = 0 ∧
    resumeEpoch args fs ≤ e ∧ e < args.epochs ∧
    ck.epoch = e + 1 ∧
    pth = pathJoin args.save_model
      ("checkpoint-epoch-" ++ toString e ++ ".pth.tar") ∧
    Except.map MainResult.loaded
        (mainRun T args2 world_size2 rank2 tb2 vb2 iM2 iO2 iS2 fs2) =
      Except.ok (some ck) ∧
    Except.map MainResult.start_epoch
        (mainRun T args2 world_size2 rank2 tb2 vb2 iM2 iO2 iS2 fs2) =
      Except.ok (e + 1) ∧
    Except.map (fun r2 => r2.trace.countP (isTrainStartAt e2))
        (mainRun T args2 world_size2 rank2 tb2 vb2 iM2 iO2 iS2 fs2) =
      Except.ok (if e + 1 ≤ e2 ∧ e2 < args2.epochs then 1 else 0) := by
  simp only [mainRun, hds, if_true, eq_self_iff_true, Except.ok.injEq] at hrun
  subst hrun
  simp only [List.mem_append, List.mem_cons] at hsave
  rcases hsave with ((h | h) | h) | h
  · exfalso
    have h0 := resumeState_countP args iM iO iS fs isSaveEpochEv rfl
    exact absurd rfl (List.countP_eq_zero.mp h0 _ h)
  · exfalso
    split at h <;> simp at h
  · have hml := mainLoop_saveEpoch_mem T args rank (rank == 0) tb vb
      _ _ _ _ e pth ck h
    have hmem := List.mem_range'_1.mp hml.2.1
    rw [resumeState_start args iM iO iS fs] at hmem
    have hck := hml.2.2.2.1
    refine ⟨hml.1, hml.2.2.1, hmem.1, by omega, hck, hml.2.2.2.2, ?_, ?_, ?_⟩
    · simp [mainRun, hds2, resumeState, hres2, hfs2, Except.map]
    · simp [mainRun, hds2, resumeState, hres2, hfs2, Except.map, hck]
    · simp only [mainRun, hds2, if_true, eq_self_iff_true, resumeState,
        hres2, hfs2, Except.map, List.countP_append, List.countP_cons,
        mainLoop_countP_trainStart, count_range', hck,
        apply_ite (List.countP (isTrainStartAt (M := M) (O := O) (S := S) e2))]
      simp [isTrainStartAt]
      split_ifs <;> omega
  · exfalso
    simp at h

/-- Witness for C1: a one-epoch rank-0 run whose trace contains the
`checkpoint-epoch-0` save, resumed by a second run reading that file. -/
theorem per_epoch_checkpoint_roundtrip_witness :
    (mainRun torchNat { parse_options with epochs := 1 } 1 0
        (fun _ => []) (fun _ => []) 0 0 0 fsEmpty =
      Except.ok oneEpochRunResult) ∧
    ((0 : Nat) = 0 ∧ 0 % 1 = 0 ∧
    resumeEpoch { parse_options with epochs := 1 } fsEmpty ≤ 0 ∧ (0 : Nat) < 1 ∧
    (⟨1, 0, 0, 1⟩ : Checkpoint Nat Nat Nat).epoch = 0 + 1 ∧
    pathJoin "./checkpoints" "checkpoint-epoch-0.pth.tar" =
      pathJoin "./checkpoints" ("checkpoint-epoch-" ++ toString 0 ++ ".pth.tar") ∧
    Except.map MainResult.loaded
        (mainRun torchNat { parse_options with epochs := 240, resume := some "ck" }
          1 0 (fun _ => []) (fun _ => []) 0 0 0
          (fun p => if p = "ck" then some ⟨1, 0, 0, 1⟩ else none)) =
      Except.ok (some ⟨1, 0, 0, 1⟩) ∧
    Except.map MainResult.start_epoch
        (mainRun torchNat { parse_options with epochs := 240, resume := some "ck" }
          1 0 (fun _ => []) (fun _ => []) 0 0 0
          (fun p => if p = "ck" then some ⟨1, 0, 0, 1⟩ else none)) =
      Except.ok (0 + 1) ∧
    Except.map (fun r2 => r2.trace.countP (isTrainStartAt 5))
        (mainRun torchNat { parse_options with epochs := 240, resume := some "ck" }
          1 0 (fun _ => []) (fun _ => []) 0 0 0
          (fun p => if p = "ck" then some ⟨1, 0, 0, 1⟩ else none)) =
      Except.ok (if 0 + 1 ≤ 5 ∧ 5 < 240 then 1 else 0)) := by
  refine ⟨by decide, ?_⟩
  exact per_epoch_checkpoint_roundtrip torchNat
    { parse_options with epochs := 1 } 1 0 (fun _ => []) (fun _ => [])
    0 0 0 fsEmpty
    { parse_options with epochs := 240, resume := some "ck" } 1 0
    (fun _ => []) (fun _ => []) 0 0 0
    (fun p => if p = "ck" then some ⟨1, 0, 0, 1⟩ else none)
    oneEpochRunResult 0
    (pathJoin "./checkpoints" "checkpoint-epoch-0.pth.tar") ⟨1, 0, 0, 1⟩
    "ck" 5 rfl (by decide) (by decide) rfl rfl (by decide)

/-- C3: in `train`, every backpropagated loss is the criterion loss of
that batch divided by `args.iter_size` (the division happens before
`loss.backward()`), and `optimizer.step()` immediately followed by
`optimizer.zero_grad()` runs exactly on those batch indices `i` with
`(i + 1) % args.iter_size == 0` and never otherwise (the event counts
rule out stray steps).  Positivity of `iter_size` excludes the
`ZeroDivisionError` the Python script would raise on 0. -/
theorem train_loss_scaling_and_grad_accumulation
    (T : Torch M O S B) (args : Args) (vis : Bool) (epoch : Nat)
    (batches : List B) (m : M) (o : O)
    (hiter : 0 < args.iter_size) :
    backLosses (train T args vis epoch batches m o).1 =
      (lossSeq T args 0 batches m o).map
        (fun q => q / (args.iter_size : ℚ)) ∧
    stepFlags (train T args vis epoch batches m o).1 =
      (List.range batches.length).map
        (fun i => decide ((i + 1) % args.iter_size = 0)) ∧
    (train T args vis epoch batches m o).1.countP isOptStepEv =
      (List.range batches.length).countP
        (fun i => (i + 1) % args.iter_size == 0) ∧
    (train T args vis epoch batches m o).1.countP isZeroGradEv =
      (List.range batches.length).countP
        (fun i => (i + 1) % args.iter_size == 0) := by
  refine ⟨?_, ?_, ?_, ?_⟩
  · have hb := backLosses_trainLoop T args vis 0 batches AverageMeter.init m o
    simp only [backLosses] at hb ⊢
    simp [train, List.filterMap_cons, List.filterMap_append, hb]
  · have hf := stepFlags_trainLoop T args vis epoch 0 batches
      AverageMeter.init m o
    simp only [train, List.cons_append, stepFlags_trainStart, hf,
      List.range_eq_range']
  · have hc := trainLoop_countP_opt T args vis 0 batches AverageMeter.init m o
    simp [train, List.countP_cons, List.countP_append, hc, isOptStepEv,
      List.range_eq_range']
  · have hc := trainLoop_countP_zeroGrad T args vis 0 batches
      AverageMeter.init m o
    simp [train, List.countP_cons, List.countP_append, hc, isZeroGradEv,
      List.range_eq_range']

/-- Witness for C3 with iter_size 2 and three batches. -/
theorem train_loss_scaling_and_grad_accumulation_witness :
    (0 : Nat) < 2 ∧
    (backLosses (train torchNat { parse_options with iter_size := 2 } true 0
        [1, 2, 3] 0 0).1 =
      (lossSeq torchNat { parse_options with iter_size := 2 } 0 [1, 2, 3]
        0 0).map (fun q => q / ((2 : Nat) : ℚ)) ∧
    stepFlags (train torchNat { parse_options with iter_size := 2 } true 0
        [1, 2, 3] 0 0).1 =
      (List.range 3).map (fun i => decide ((i + 1) % 2 = 0)) ∧
    (train torchNat { parse_options with iter_size := 2 } true 0
        [1, 2, 3] 0 0).1.countP isOptStepEv =
      (List.range 3).countP (fun i => (i + 1) % 2 == 0) ∧
    (train torchNat { parse_options with iter_size := 2 } true 0
        [1, 2, 3] 0 0).1.countP isZeroGradEv =
      (List.range 3).countP (fun i => (i + 1) % 2 == 0)) :=
  ⟨by decide,
   train_loss_scaling_and_grad_accumulation torchNat
     { parse_options with iter_size := 2 } true 0 [1, 2, 3] 0 0 (by decide)⟩

/-- C7: `train` and `validate` each return `losses.avg` for a meter
updated once per batch with the pair (loss divided by `args.iter_size`,
batch size), which equals the batch-size-weighted average of the scaled
per-batch losses.  The batch-size positivity excludes the
`ZeroDivisionError` a zero weight would cause in the Python meter. -/
theorem epoch_metrics_weighted_average
    (T : Torch M O S B) (args : Args) (vis : Bool) (epoch : Nat)
    (batches : List B) (m : M) (o : O)
    (hne : batches ≠ [])
    (hpos : ∀ b ∈ batches, 0 < T.batchSize b) :
    (train T args vis epoch batches m o).2.1 =
      (meterFold
        (((lossSeq T args 0 batches m o).map
            (fun q => q / (args.iter_size : ℚ))).zip
          (batches.map T.batchSize)) AverageMeter.init).avg ∧
    (train T args vis epoch batches m o).2.1 =
      ((((lossSeq T args 0 batches m o).map
          (fun q => q / (args.iter_size : ℚ))).zip
            (batches.map T.batchSize)).map
        (fun p => p.1 * (p.2 : ℚ))).sum /
        (((batches.map T.batchSize).sum : Nat) : ℚ) ∧
    (validate T args vis epoch batches m).2 =
      (meterFold
        ((batches.map (fun b => T.valForward m b / (args.iter_size : ℚ))).zip
          (batches.map T.batchSize)) AverageMeter.init).avg ∧
    (validate T args vis epoch batches m).2 =
      (((batches.map (fun b => T.valForward m b / (args.iter_size : ℚ))).zip
          (batches.map T.batchSize)).map (fun p => p.1 * (p.2 : ℚ))).sum /
        (((batches.map T.batchSize).sum : Nat) : ℚ) := by
  have hbl : 0 < batches.length := List.length_pos.mpr hne
  have havg : (train T args vis epoch batches m o).2.1 =
      (meterFold
        (((lossSeq T args 0 batches m o).map
            (fun q => q / (args.iter_size : ℚ))).zip
          (batches.map T.batchSize)) AverageMeter.init).avg := by
    simp only [train]
    rw [trainLoop_meter]
  have hvavg : (validate T args vis epoch batches m).2 =
      (meterFold
        ((batches.map (fun b => T.valForward m b / (args.iter_size : ℚ))).zip
          (batches.map T.batchSize)) AverageMeter.init).avg := by
    simp only [validate]
    rw [valLoop_meter]
  have hzip_ne :
      (((lossSeq T args 0 batches m o).map
          (fun q => q / (args.iter_size : ℚ))).zip
        (batches.map T.batchSize)) ≠ [] := by
    intro h
    have hlen := congrArg List.length h
    simp [List.length_zip, lossSeq_length] at hlen
    exact hne hlen
  have hvzip_ne :
      ((batches.map (fun b => T.valForward m b / (args.iter_size : ℚ))).zip
        (batches.map T.batchSize)) ≠ [] := by
    intro h
    have hlen := congrArg List.length h
    simp [List.length_zip] at hlen
    exact hne hlen
  have hsnd : (((lossSeq T args 0 batches m o).map
        (fun q => q / (args.iter_size : ℚ))).zip
      (batches.map T.batchSize)).map Prod.snd = batches.map T.batchSize := by
    apply List.map_snd_zip
    simp [lossSeq_length]
  have hvsnd : ((batches.map
        (fun b => T.valForward m b / (args.iter_size : ℚ))).zip
      (batches.map T.batchSize)).map Prod.snd = batches.map T.batchSize := by
    apply List.map_snd_zip
    simp
  refine ⟨havg, ?_, hvavg, ?_⟩
  · rw [havg, meterFold_avg _ _ hzip_ne, meterFold_sum, meterFold_count, hsnd]
    simp [AverageMeter.init]
  · rw [hvavg, meterFold_avg _ _ hvzip_ne, meterFold_sum, meterFold_count,
      hvsnd]
    simp [AverageMeter.init]

/-- Witness for C7 with two batches of sizes 3 and 4. -/
theorem epoch_metrics_weighted_average_witness :
    ([2, 3] : List Nat) ≠ [] ∧
    (∀ b ∈ ([2, 3] : List Nat), 0 < torchNat.batchSize b) ∧
    ((train torchNat parse_options true 0 [2, 3] 0 0).2.1 =
      (meterFold
        (((lossSeq torchNat parse_options 0 [2, 3] 0 0).map
            (fun q => q / ((1 : Nat) : ℚ))).zip
          (([2, 3] : List Nat).map torchNat.batchSize))
        AverageMeter.init).avg ∧
    (train torchNat parse_options true 0 [2, 3] 0 0).2.1 =
      ((((lossSeq torchNat parse_options 0 [2, 3] 0 0).map
          (fun q => q / ((1 : Nat) : ℚ))).zip
            (([2, 3] : List Nat).map torchNat.batchSize)).map
        (fun p => p.1 * (p.2 : ℚ))).sum /
        (((([2, 3] : List Nat).map torchNat.batchSize).sum : Nat) : ℚ) ∧
    (validate torchNat parse_options true 0 [2, 3] 0).2 =
      (meterFold
        ((([2, 3] : List Nat).map
            (fun b => torchNat.valForward 0 b / ((1 : Nat) : ℚ))).zip
          (([2, 3] : List Nat).map torchNat.batchSize))
        AverageMeter.init).avg ∧
    (validate torchNat parse_options true 0 [2, 3] 0).2 =
      (((([2, 3] : List Nat).map
          (fun b => torchNat.valForward 0 b / ((1 : Nat) : ℚ))).zip
            (([2, 3] : List Nat).map torchNat.batchSize)).map
        (fun p => p.1 * (p.2 : ℚ))).sum /
        (((([2, 3] : List Nat).map torchNat.batchSize).sum : Nat) : ℚ)) :=
  ⟨by decide, by decide,
   epoch_metrics_weighted_average torchNat parse_options true 0 [2, 3] 0 0
     (by decide) (by decide)⟩

end VOS
